import Mathlib

set_option maxHeartbeats 1000000

set_option allowUnsafeReducibility true

attribute [semireducible] Rat.add Rat.mul Rat.sub

/-!
Shallow embedding of the road-race game (src/main.rs).

Positions, rotations, elapsed time and volumes are f32 in the source; they
are modelled as exact rationals.  The health counter is a u8 modelled as a
Nat (the invariant proofs show it stays within 0..=5, so no wraparound is
reachable).  The engine registry (sprites by label, texts by label), the
per-frame collision-event list, the keyboard state and the frame delta are
carried in an explicit Engine record.  Randomness (thread_rng().gen_range)
is modelled by a stream of unit-interval samples together with a cursor
index.  Audio and text side effects are recorded in an effect log so that
claims about side effects are observable.
-/

/-- PLAYER_SPEED constant from src/main.rs (250.0 units per second). -/
def PLAYER_SPEED : Rat := 250

/-- ROAD_SPEED constant from src/main.rs (400.0 units per second). -/
def ROAD_SPEED : Rat := 400

/-- The GameState struct from src/main.rs: player name, u8 health, lost flag. -/
structure GameState where
  player_name : String
  health_amount : Nat
  lost : Bool
deriving DecidableEq

/-- A sprite of the engine registry: its label, translation x, y and rotation. -/
structure Sprite where
  label : String
  x : Rat
  y : Rat
  rotation : Rat
deriving DecidableEq

/-- A text entity of the engine registry: its label and current string value. -/
structure GameText where
  label : String
  value : String
deriving DecidableEq

/-- Collision phase of a rusty_engine CollisionEvent: begin or end. -/
inductive CollisionPhase where
  | Begin
  | End
deriving DecidableEq

/-- The pair of entity labels carried by a collision event. -/
structure CollisionPair where
  a : String
  b : String
deriving DecidableEq

/-- A collision event: the pair of labels involved and the phase. -/
structure CollisionEvent where
  pair : CollisionPair
  state : CollisionPhase
deriving DecidableEq

/-- CollisionPair.either_contains from rusty_engine: does the pair mention the label. -/
def CollisionPair.either_contains (p : CollisionPair) (name : String) : Bool :=
  p.a == name || p.b == name

/-- CollisionState::is_end from rusty_engine. -/
def CollisionPhase.is_end : CollisionPhase → Bool
  | CollisionPhase.End => true
  | CollisionPhase.Begin => false

/-- Keyboard state restricted to the two keys the game reads (Up, Down). -/
structure KeyboardState where
  up : Bool
  down : Bool
deriving DecidableEq

/-- Observable side effects emitted by the game logic: one-shot sounds,
stopping the music, creating a text entity, updating a text value. -/
inductive Effect where
  | playSfx (sfx : String) (volume : Rat)
  | stopMusic
  | addText (label text : String)
  | setText (label text : String)
deriving DecidableEq

/-- The per-frame engine view: sprite and text registries, the frame's
collision events, keyboard state, frame delta, the random stream with its
cursor, and the accumulated effect log. -/
structure Engine where
  sprites : List Sprite
  texts : List GameText
  collision_events : List CollisionEvent
  keyboard_state : KeyboardState
  delta_f32 : Rat
  rng : Nat → Rat
  rng_idx : Nat
  effects : List Effect

/-- Registry lookup by sprite label (engine.sprites.get_mut). -/
def getSprite : List Sprite → String → Option Sprite
  | [], _ => none
  | s :: rest, name => if s.label == name then some s else getSprite rest name

/-- Write back a sprite under a label: replaces the first sprite whose label
matches (registry labels are unique keys in the engine). -/
def setSprite : List Sprite → String → Sprite → List Sprite
  | [], _, _ => []
  | s :: rest, name, v => if s.label == name then v :: rest else s :: setSprite rest name v

/-- Registry lookup by text label (engine.texts.get_mut). -/
def getText : List GameText → String → Option GameText
  | [], _ => none
  | t :: rest, name => if t.label == name then some t else getText rest name

/-- Write back a text value under a label: replaces the value of the first
matching text entity. -/
def setTextVal : List GameText → String → String → List GameText
  | [], _, _ => []
  | t :: rest, name, v =>
      if t.label == name then { t with value := v } :: rest else t :: setTextVal rest name v

/-- The direction scalar computed at the top of handle_keyboard: starts at
0.0, +1.0 if Up is pressed, then -1.0 if Down is pressed. -/
def direction_of (ks : KeyboardState) : Rat :=
  let d : Rat := 0
  let d := if ks.up then d + 1 else d
  let d := if ks.down then d - 1 else d
  d

/-- handle_keyboard from src/main.rs: resolve the direction, move and rotate
the player sprite, and zero the health when the resulting y is out of
bounds.  The unwrap on the registry lookup is modelled by Option. -/
def handle_keyboard (engine : Engine) (game_state : GameState) : Option (Engine × GameState) :=
  let direction := direction_of engine.keyboard_state
  match getSprite engine.sprites game_state.player_name with
  | none => none
  | some player =>
    let player' := { player with
        y := player.y + direction * PLAYER_SPEED * engine.delta_f32,
        rotation := direction * (15 / 100) }
    let engine' := { engine with sprites := setSprite engine.sprites game_state.player_name player' }
    let game_state' :=
      if player'.y < -360 ∨ player'.y > 360 then { game_state with health_amount := 0 }
      else game_state
    some (engine', game_state')

/-- Boolean list-prefix test on characters, used to model str::starts_with. -/
def is_pre : List Char → List Char → Bool
  | [], _ => true
  | _ :: _, [] => false
  | c :: cs, d :: ds => c == d && is_pre cs ds

/-- str::starts_with on labels. -/
def starts_with (s p : String) : Bool := is_pre p.data s.data

/-- thread_rng().gen_range(lo..hi): the next unit sample scaled into the
half-open range. -/
def gen_range (rng : Nat → Rat) (idx : Nat) (lo hi : Rat) : Rat :=
  lo + rng idx * (hi - lo)

/-- The body of the move_road_objects loop for one sprite: road lines scroll
left and wrap, obstacles scroll left and respawn at random, other sprites
are untouched.  Returns the updated sprite and random cursor. -/
def moveRoadSprite (dt : Rat) (rng : Nat → Rat) (sprite : Sprite) (idx : Nat) : Sprite × Nat :=
  let sprite :=
    if starts_with sprite.label "roadline" then
      let x := sprite.x - ROAD_SPEED * dt
      { sprite with x := if x < -675 then x + 1500 else x }
    else sprite
  if starts_with sprite.label "obstacle" then
    let x := sprite.x - ROAD_SPEED * dt
    if x < -800 then
      ({ sprite with x := gen_range rng idx 800 1600, y := gen_range rng (idx + 1) (-300) 300 },
        idx + 2)
    else
      ({ sprite with x := x }, idx)
  else
    (sprite, idx)

/-- The move_road_objects loop over the whole sprite registry, threading the
random cursor. -/
def moveRoadSprites (dt : Rat) (rng : Nat → Rat) : List Sprite → Nat → List Sprite × Nat
  | [], idx => ([], idx)
  | sprite :: rest, idx =>
    let first := moveRoadSprite dt rng sprite idx
    let second := moveRoadSprites dt rng rest first.2
    (first.1 :: second.1, second.2)

/-- move_road_objects from src/main.rs. -/
def move_road_objects (engine : Engine) : Engine :=
  { engine with
      sprites := (moveRoadSprites engine.delta_f32 engine.rng engine.sprites engine.rng_idx).1,
      rng_idx := (moveRoadSprites engine.delta_f32 engine.rng engine.sprites engine.rng_idx).2 }

/-- The body of the handle_collisions loop for one event, acting on the
accumulator (current health, current health-message text, effects emitted so
far in the loop): skip events that do not involve the player or that end a
collision; otherwise, when health is positive, decrement it, rewrite the
health message and play the impact sound. -/
def collide_step (player_name : String) (acc : Nat × String × List Effect)
    (event : CollisionEvent) : Nat × String × List Effect :=
  if !event.pair.either_contains player_name || event.state.is_end then acc
  else if 0 < acc.1 then
    (acc.1 - 1, "Health: " ++ toString (acc.1 - 1),
      acc.2.2 ++ [Effect.setText "health_message" ("Health: " ++ toString (acc.1 - 1)),
        Effect.playSfx "Impact3" (7 / 10)])
  else acc

/-- handle_collisions from src/main.rs: look up the health message (unwrap
modelled by Option), drain the frame's collision events through
collide_step, write back the final health, final message text and the
emitted effects. -/
def handle_collisions (engine : Engine) (game_state : GameState) : Option (Engine × GameState) :=
  match getText engine.texts "health_message" with
  | none => none
  | some health_message =>
    let r := engine.collision_events.foldl (collide_step game_state.player_name)
        (game_state.health_amount, health_message.value, ([] : List Effect))
    some
      ({ engine with
          texts := setTextVal engine.texts "health_message" r.2.1,
          collision_events := [],
          effects := engine.effects ++ r.2.2 },
        { game_state with health_amount := r.1 })

/-- The three game-over side effects of check_health, in program order:
create the Game Over label, stop the music, play the game-over jingle. -/
def gameOverFx : List Effect :=
  [Effect.addText "game over" "Game Over", Effect.stopMusic,
    Effect.playSfx "Jingle3" (3 / 4)]

/-- check_health from src/main.rs: when health is zero, set lost, create the
Game Over text and emit the game-over audio effects; otherwise do nothing. -/
def check_health (engine : Engine) (game_state : GameState) : Engine × GameState :=
  if game_state.health_amount = 0 then
    ({ engine with
        texts := engine.texts ++ [{ label := "game over", value := "Game Over" }],
        effects := engine.effects ++ gameOverFx },
      { game_state with lost := true })
  else (engine, game_state)

/-- game_logic from src/main.rs, the per-frame update: early-return when
lost, else keyboard, road objects, collisions, health check, in order. -/
def game_logic (engine : Engine) (game_state : GameState) : Option (Engine × GameState) :=
  if game_state.lost = true then some (engine, game_state)
  else
    match handle_keyboard engine game_state with
    | none => none
    | some es =>
      let e2 := move_road_objects es.1
      match handle_collisions e2 es.2 with
      | none => none
      | some es' => some (check_health es'.1 es'.2)

/-- The data the external engine refreshes before each frame: the frame's
collision events, the keyboard snapshot and the frame delta. -/
structure FrameInput where
  events : List CollisionEvent
  keys : KeyboardState
  delta : Rat

/-- Install a frame's input into the engine view. -/
def loadFrame (engine : Engine) (fi : FrameInput) : Engine :=
  { engine with
      collision_events := fi.events,
      keyboard_state := fi.keys,
      delta_f32 := fi.delta }

/-- A run: the external engine calls game_logic once per frame, refreshing
the frame input each time.  None models a panic in some frame. -/
def run (engine : Engine) (game_state : GameState) : List FrameInput → Option (Engine × GameState)
  | [] => some (engine, game_state)
  | fi :: rest =>
    match game_logic (loadFrame engine fi) game_state with
    | none => none
    | some es => run es.1 es.2 rest

/-- The initial GameState built in main: name Colin, health 5, not lost. -/
def initial_game_state : GameState :=
  { player_name := "Colin", health_amount := 5, lost := false }

/-- Number of stop-music effects in a log (the stop-music effect is emitted
only by the game-over transition, so this counts game-over firings). -/
def countStop : List Effect → Nat
  | [] => 0
  | Effect.stopMusic :: rest => countStop rest + 1
  | _ :: rest => countStop rest

/-- A constant random stream (every unit sample is 0), used for witnesses. -/
def rng0 : Nat → Rat := fun _ => 0

/-- The player sprite as created by add_player in main. -/
def pW : Sprite := { label := "Colin", x := -500, y := 0, rotation := 0 }

/-- The health-message text as created in main. -/
def tW : GameText := { label := "health_message", value := "Health: 5" }

/-- A small concrete engine view: the player sprite, the health message, no
events, no keys, zero delta. -/
def wEngine : Engine :=
  { sprites := [pW], texts := [tW], collision_events := [],
    keyboard_state := { up := false, down := false }, delta_f32 := 0,
    rng := rng0, rng_idx := 0, effects := [] }

/-- A mid-game state: health 5, not lost. -/
def wState : GameState := { player_name := "Colin", health_amount := 5, lost := false }

/-- A collision-begin event between the player and an obstacle. -/
def evW : CollisionEvent :=
  { pair := { a := "Colin", b := "obstacle0" }, state := CollisionPhase.Begin }

/-- The concrete engine with one pending player-obstacle collision event. -/
def evEngine : Engine := { wEngine with collision_events := [evW] }

/-- Result of one update call on the plain concrete input. -/
def wOut : Engine × GameState := (game_logic wEngine wState).getD (wEngine, wState)

/-- A terminal state: health exhausted, lost. -/
def cState : GameState := { player_name := "Colin", health_amount := 0, lost := true }

/-- A state one hit away from losing. -/
def c1wS : GameState := { player_name := "Colin", health_amount := 1, lost := false }

/-- Result of the update on the one-event engine from the one-health state:
the frame in which the game-over transition fires. -/
def c1wOut : Engine × GameState := (game_logic evEngine c1wS).getD (evEngine, c1wS)

/-- Result of the update on the one-event engine from the five-health state. -/
def c3wOut : Engine × GameState := (game_logic evEngine wState).getD (evEngine, wState)

/-- An engine with the up key held and a large frame delta, which drives the
player out of bounds. -/
def c5wE : Engine :=
  { wEngine with keyboard_state := { up := true, down := false }, delta_f32 := 2 }

/-- The keyboard phase of the out-of-bounds frame. -/
def c5wK : Engine × GameState := (handle_keyboard c5wE wState).getD (c5wE, wState)

/-- The whole update call of the out-of-bounds frame. -/
def c5wG : Engine × GameState := (game_logic c5wE wState).getD (c5wE, wState)

/-- A collision accumulator holding health 3 and its display text. -/
def c6wAcc : Nat × String × List Effect := (3, "Health: 3", [])

/-- An engine with the up key held for one second of frame delta. -/
def c7wE : Engine :=
  { wEngine with keyboard_state := { up := true, down := false }, delta_f32 := 1 }

/-- The keyboard phase of that frame. -/
def c7wOut : Engine × GameState := (handle_keyboard c7wE wState).getD (c7wE, wState)

/-- The player sprite after that keyboard phase. -/
def c7wP : Sprite := (getSprite c7wOut.1.sprites "Colin").getD pW

/-- An obstacle sprite just about to leave the screen on the left. -/
def obsW : Sprite := { label := "obstacle0", x := -500, y := 100, rotation := 0 }

/-- One frame of input that steers the player far out of bounds. -/
def c10wIn : List FrameInput :=
  [{ events := [], keys := { up := true, down := false }, delta := 10 }]

/-- The run of that single frame from the initial state. -/
def c10wOut : Engine × GameState :=
  (run wEngine initial_game_state c10wIn).getD (wEngine, initial_game_state)

theorem countStop_append (l m : List Effect) :
    countStop (l ++ m) = countStop l + countStop m := by
  induction l with
  | nil => simp [countStop]
  | cons x rest ih => cases x <;> simp [countStop, ih] <;> omega

theorem getSprite_set (l : List Sprite) (name : String) (p v : Sprite)
    (hp : getSprite l name = some p) (hv : v.label = p.label) :
    getSprite (setSprite l name v) name = some v := by
  induction l with
  | nil => simp [getSprite] at hp
  | cons a rest ih =>
    by_cases ha : (a.label == name) = true
    · rw [getSprite, if_pos ha] at hp
      rw [setSprite, if_pos ha, getSprite]
      have hap : a = p := by injection hp
      rw [if_pos]
      rw [hv, ← hap]
      exact ha
    · rw [getSprite, if_neg ha] at hp
      rw [setSprite, if_neg ha, getSprite, if_neg ha]
      exact ih hp

theorem handle_keyboard_eq (e : Engine) (s : GameState) (p p' : Sprite)
    (hp : getSprite e.sprites s.player_name = some p)
    (hp' : p' = { p with y := p.y + direction_of e.keyboard_state * PLAYER_SPEED * e.delta_f32,
                         rotation := direction_of e.keyboard_state * (15 / 100) }) :
    handle_keyboard e s = some
      ({ e with sprites := setSprite e.sprites s.player_name p' },
        if p'.y < -360 ∨ p'.y > 360 then { s with health_amount := 0 } else s) := by
  subst hp'
  unfold handle_keyboard
  rw [hp]

theorem handle_keyboard_parts (e e' : Engine) (s s' : GameState)
    (h : handle_keyboard e s = some (e', s')) :
    e'.collision_events = e.collision_events ∧ e'.effects = e.effects ∧ e'.texts = e.texts ∧
    s'.lost = s.lost ∧ s'.player_name = s.player_name ∧
    (s'.health_amount = s.health_amount ∨ s'.health_amount = 0) := by
  cases hp : getSprite e.sprites s.player_name with
  | none =>
    unfold handle_keyboard at h
    rw [hp] at h
    simp at h
  | some p =>
    rw [handle_keyboard_eq e s p _ hp rfl] at h
    injection h with h
    rw [Prod.mk.injEq] at h
    obtain ⟨he, hs⟩ := h
    subst he
    subst hs
    refine ⟨rfl, rfl, rfl, ?_, ?_, ?_⟩
    · split <;> rfl
    · split <;> rfl
    · split
      · exact Or.inr rfl
      · exact Or.inl rfl

theorem move_road_objects_effects (e : Engine) :
    (move_road_objects e).effects = e.effects := rfl

theorem move_road_objects_events (e : Engine) :
    (move_road_objects e).collision_events = e.collision_events := rfl

theorem move_road_objects_texts (e : Engine) :
    (move_road_objects e).texts = e.texts := rfl

theorem collide_step_fst_le (name : String) (acc : Nat × String × List Effect)
    (ev : CollisionEvent) : (collide_step name acc ev).1 ≤ acc.1 := by
  unfold collide_step
  split
  · exact le_refl _
  · split
    · exact Nat.sub_le _ _
    · exact le_refl _

theorem collide_foldl_fst_le (name : String) :
    ∀ (evs : List CollisionEvent) (acc : Nat × String × List Effect),
      (List.foldl (collide_step name) acc evs).1 ≤ acc.1 := by
  intro evs
  induction evs with
  | nil => intro acc; exact le_refl _
  | cons ev rest ih =>
    intro acc
    rw [List.foldl_cons]
    exact le_trans (ih _) (collide_step_fst_le name acc ev)

theorem collide_step_effects (name : String) (acc : Nat × String × List Effect)
    (ev : CollisionEvent) :
    ∃ fx, (collide_step name acc ev).2.2 = acc.2.2 ++ fx ∧ countStop fx = 0 := by
  unfold collide_step
  split
  · exact ⟨[], by simp, rfl⟩
  · split
    · refine ⟨[Effect.setText "health_message" ("Health: " ++ toString (acc.1 - 1)),
        Effect.playSfx "Impact3" (7 / 10)], rfl, rfl⟩
    · exact ⟨[], by simp, rfl⟩

theorem collide_foldl_effects (name : String) :
    ∀ (evs : List CollisionEvent) (acc : Nat × String × List Effect),
      ∃ fx, (List.foldl (collide_step name) acc evs).2.2 = acc.2.2 ++ fx ∧ countStop fx = 0 := by
  intro evs
  induction evs with
  | nil => intro acc; exact ⟨[], by simp, rfl⟩
  | cons ev rest ih =>
    intro acc
    rw [List.foldl_cons]
    obtain ⟨fx1, h1, c1⟩ := collide_step_effects name acc ev
    obtain ⟨fx2, h2, c2⟩ := ih (collide_step name acc ev)
    refine ⟨fx1 ++ fx2, ?_, ?_⟩
    · rw [h2, h1, List.append_assoc]
    · rw [countStop_append, c1, c2]

theorem handle_collisions_eq (e : Engine) (s : GameState) (t : GameText)
    (r : Nat × String × List Effect)
    (ht : getText e.texts "health_message" = some t)
    (hr : r = e.collision_events.foldl (collide_step s.player_name)
        (s.health_amount, t.value, ([] : List Effect))) :
    handle_collisions e s = some
      ({ e with
          texts := setTextVal e.texts "health_message" r.2.1,
          collision_events := [],
          effects := e.effects ++ r.2.2 },
        { s with health_amount := r.1 }) := by
  subst hr
  unfold handle_collisions
  rw [ht]

theorem handle_collisions_parts (e e' : Engine) (s s' : GameState)
    (h : handle_collisions e s = some (e', s')) :
    e'.collision_events = [] ∧ s'.lost = s.lost ∧ s'.player_name = s.player_name ∧
    s'.health_amount ≤ s.health_amount ∧
    ∃ fx, e'.effects = e.effects ++ fx ∧ countStop fx = 0 := by
  cases ht : getText e.texts "health_message" with
  | none =>
    unfold handle_collisions at h
    rw [ht] at h
    simp at h
  | some t =>
    rw [handle_collisions_eq e s t _ ht rfl] at h
    injection h with h
    rw [Prod.mk.injEq] at h
    obtain ⟨he, hs⟩ := h
    subst he
    subst hs
    refine ⟨rfl, rfl, rfl, collide_foldl_fst_le s.player_name e.collision_events _, ?_⟩
    obtain ⟨fx, hfx, hc⟩ := collide_foldl_effects s.player_name e.collision_events
      (s.health_amount, t.value, ([] : List Effect))
    refine ⟨(e.collision_events.foldl (collide_step s.player_name)
      (s.health_amount, t.value, ([] : List Effect))).2.2, rfl, ?_⟩
    rw [hfx]
    simpa using hc

theorem check_health_parts (e e' : Engine) (s s' : GameState)
    (h : (e', s') = check_health e s) :
    s'.health_amount = s.health_amount ∧ s'.player_name = s.player_name ∧
    (s'.lost = true ↔ (s.health_amount = 0 ∨ s.lost = true)) ∧
    (s.health_amount = 0 → e'.effects = e.effects ++ gameOverFx) ∧
    (s.health_amount ≠ 0 → e' = e ∧ s' = s) ∧
    e'.collision_events = e.collision_events := by
  unfold check_health at h
  by_cases h0 : s.health_amount = 0
  · rw [if_pos h0] at h
    rw [Prod.mk.injEq] at h
    obtain ⟨he, hs⟩ := h
    subst he
    subst hs
    refine ⟨rfl, rfl, ?_, fun _ => rfl, fun hc => absurd h0 hc, rfl⟩
    simp [h0]
  · rw [if_neg h0] at h
    rw [Prod.mk.injEq] at h
    obtain ⟨he, hs⟩ := h
    subst he
    subst hs
    refine ⟨rfl, rfl, ?_, fun hc => absurd hc h0, fun _ => ⟨rfl, rfl⟩, rfl⟩
    simp [h0]

theorem game_logic_lost (e : Engine) (s : GameState) (h : s.lost = true) :
    game_logic e s = some (e, s) := by
  unfold game_logic
  rw [if_pos h]

theorem game_logic_decomp (e : Engine) (s : GameState) (e' : Engine) (s' : GameState)
    (hl : s.lost = false) (hg : game_logic e s = some (e', s')) :
    ∃ e1 s1 e3 s3,
      handle_keyboard e s = some (e1, s1) ∧
      handle_collisions (move_road_objects e1) s1 = some (e3, s3) ∧
      (e', s') = check_health e3 s3 := by
  unfold game_logic at hg
  rw [hl] at hg
  simp only [Bool.false_eq_true, if_false] at hg
  cases hk : handle_keyboard e s with
  | none =>
    rw [hk] at hg
    exact absurd hg (by simp)
  | some es =>
    rw [hk] at hg
    simp only at hg
    cases hc : handle_collisions (move_road_objects es.1) es.2 with
    | none =>
      rw [hc] at hg
      exact absurd hg (by simp)
    | some es' =>
      rw [hc] at hg
      simp only [Option.some.injEq] at hg
      refine ⟨es.1, es.2, es'.1, es'.2, ?_, ?_, hg.symm⟩
      · exact rfl
      · exact hc

theorem game_logic_health_le (e e' : Engine) (s s' : GameState)
    (hg : game_logic e s = some (e', s')) : s'.health_amount ≤ s.health_amount := by
  cases hl : s.lost with
  | true =>
    rw [game_logic_lost e s hl] at hg
    injection hg with hg
    rw [Prod.mk.injEq] at hg
    obtain ⟨he, hs⟩ := hg
    rw [← hs]
  | false =>
    obtain ⟨e1, s1, e3, s3, hk, hc, hch⟩ := game_logic_decomp e s e' s' hl hg
    have hkp := handle_keyboard_parts e e1 s s1 hk
    have hcp := handle_collisions_parts (move_road_objects e1) e3 s1 s3 hc
    have hchp := check_health_parts e3 e' s3 s' hch
    have h1 : s3.health_amount ≤ s1.health_amount := hcp.2.2.2.1
    have h2 : s'.health_amount = s3.health_amount := hchp.1
    rcases hkp.2.2.2.2.2 with h3 | h3 <;> omega

theorem game_logic_step_spec (e e' : Engine) (s s' : GameState)
    (hl : s.lost = false) (hg : game_logic e s = some (e', s')) :
    (s'.lost = true ↔ s'.health_amount = 0) ∧
    countStop e'.effects = countStop e.effects + (if s'.lost = true then 1 else 0) ∧
    (s'.lost = true → List.IsSuffix gameOverFx e'.effects) := by
  obtain ⟨e1, s1, e3, s3, hk, hc, hch⟩ := game_logic_decomp e s e' s' hl hg
  have hkp := handle_keyboard_parts e e1 s s1 hk
  have hcp := handle_collisions_parts (move_road_objects e1) e3 s1 s3 hc
  have hchp := check_health_parts e3 e' s3 s' hch
  have hfx1 : e1.effects = e.effects := hkp.2.1
  have hfx2 : (move_road_objects e1).effects = e1.effects := rfl
  obtain ⟨fx, hfx3, hfxc⟩ := hcp.2.2.2.2
  have h3e : countStop e3.effects = countStop e.effects := by
    rw [hfx3, hfx2, hfx1, countStop_append, hfxc]
    omega
  have hlost3 : s3.lost = false := by rw [hcp.2.1, hkp.2.2.2.1, hl]
  have hcgo : countStop gameOverFx = 1 := rfl
  by_cases h0 : s3.health_amount = 0
  · have hfired : e'.effects = e3.effects ++ gameOverFx := hchp.2.2.2.1 h0
    have hlost' : s'.lost = true := (hchp.2.2.1).mpr (Or.inl h0)
    have hh' : s'.health_amount = 0 := by rw [hchp.1]; exact h0
    refine ⟨⟨fun _ => hh', fun _ => hlost'⟩, ?_, ?_⟩
    · rw [hfired, countStop_append, h3e, hlost', hcgo]
      simp
    · intro hdummy
      exact ⟨e3.effects, hfired.symm⟩
  · obtain ⟨hee, hss⟩ := hchp.2.2.2.2.1 h0
    have hlost' : s'.lost = false := by rw [hss, hlost3]
    have hh' : s'.health_amount = s3.health_amount := by rw [hss]
    refine ⟨?_, ?_, ?_⟩
    · rw [hlost']
      constructor
      · intro hcon
        exact absurd hcon (by simp)
      · intro hz
        rw [hh'] at hz
        exact absurd hz h0
    · rw [hee, hlost', h3e]
      simp
    · intro hcon
      rw [hlost'] at hcon
      exact absurd hcon (by simp)

theorem foldl_loadFrame_effects :
    ∀ (l : List FrameInput) (e : Engine), (List.foldl loadFrame e l).effects = e.effects := by
  intro l
  induction l with
  | nil => intro e; rfl
  | cons fi rest ih =>
    intro e
    rw [List.foldl_cons, ih]
    rfl

theorem run_lost :
    ∀ (l : List FrameInput) (e : Engine) (s : GameState), s.lost = true →
      run e s l = some (List.foldl loadFrame e l, s) := by
  intro l
  induction l with
  | nil => intro e s h; rfl
  | cons fi rest ih =>
    intro e s h
    have hg : game_logic (loadFrame e fi) s = some (loadFrame e fi, s) :=
      game_logic_lost (loadFrame e fi) s h
    unfold run
    rw [hg, List.foldl_cons]
    exact ih (loadFrame e fi) s h

theorem run_health_le :
    ∀ (l : List FrameInput) (e : Engine) (s : GameState) (e' : Engine) (s' : GameState),
      run e s l = some (e', s') → s'.health_amount ≤ s.health_amount := by
  intro l
  induction l with
  | nil =>
    intro e s e' s' h
    unfold run at h
    injection h with h
    rw [Prod.mk.injEq] at h
    obtain ⟨he, hs⟩ := h
    rw [← hs]
  | cons fi rest ih =>
    intro e s e' s' h
    unfold run at h
    cases hg : game_logic (loadFrame e fi) s with
    | none =>
      rw [hg] at h
      exact absurd h (by simp)
    | some es =>
      rw [hg] at h
      exact le_trans (ih es.1 es.2 e' s' h) (game_logic_health_le (loadFrame e fi) es.1 s es.2 hg)

theorem run_lost_inv :
    ∀ (l : List FrameInput) (e : Engine) (s : GameState) (e' : Engine) (s' : GameState),
      run e s l = some (e', s') → (s.lost = true → s.health_amount = 0) →
      s'.lost = true → s'.health_amount = 0 := by
  intro l
  induction l with
  | nil =>
    intro e s e' s' h hinv
    unfold run at h
    injection h with h
    rw [Prod.mk.injEq] at h
    obtain ⟨he, hs⟩ := h
    rw [← hs]
    exact hinv
  | cons fi rest ih =>
    intro e s e' s' h hinv
    unfold run at h
    cases hg : game_logic (loadFrame e fi) s with
    | none =>
      rw [hg] at h
      exact absurd h (by simp)
    | some es =>
      rw [hg] at h
      refine ih es.1 es.2 e' s' h ?_
      cases hl : s.lost with
      | true =>
        rw [game_logic_lost (loadFrame e fi) s hl] at hg
        injection hg with hg
        rw [Prod.mk.injEq] at hg
        obtain ⟨h1, h2⟩ := hg
        rw [← h2]
        exact hinv
      | false =>
        have hstep := game_logic_step_spec (loadFrame e fi) es.1 s es.2 hl hg
        exact fun hlost => (hstep.1).mp hlost

theorem run_countStop :
    ∀ (l : List FrameInput) (e : Engine) (s : GameState) (e' : Engine) (s' : GameState),
      run e s l = some (e', s') → s.lost = false →
      countStop e'.effects = countStop e.effects + (if s'.lost = true then 1 else 0) := by
  intro l
  induction l with
  | nil =>
    intro e s e' s' h hl
    unfold run at h
    injection h with h
    rw [Prod.mk.injEq] at h
    obtain ⟨he, hs⟩ := h
    subst he
    subst hs
    rw [hl]
    simp
  | cons fi rest ih =>
    intro e s e' s' h hl
    unfold run at h
    cases hg : game_logic (loadFrame e fi) s with
    | none =>
      rw [hg] at h
      exact absurd h (by simp)
    | some es =>
      rw [hg] at h
      have hstep := game_logic_step_spec (loadFrame e fi) es.1 s es.2 hl hg
      have hload : (loadFrame e fi).effects = e.effects := rfl
      cases hl1 : es.2.lost with
      | false =>
        have hrec := ih es.1 es.2 e' s' h hl1
        rw [hrec]
        rw [hstep.2.1, hl1, hload]
        simp
      | true =>
        change run es.1 es.2 rest = some (e', s') at h
        rw [run_lost rest es.1 es.2 hl1] at h
        injection h with h
        rw [Prod.mk.injEq] at h
        obtain ⟨he, hs⟩ := h
        subst he
        subst hs
        rw [foldl_loadFrame_effects, hstep.2.1, hl1, hload]

theorem is_pre_head_ne (c d : Char) (cs ds l : List Char) (hne : c ≠ d)
    (h : is_pre (c :: cs) l = true) : is_pre (d :: ds) l = false := by
  cases l with
  | nil => simp [is_pre] at h
  | cons a l' =>
    simp only [is_pre, Bool.and_eq_true, beq_iff_eq] at h
    simp only [is_pre, Bool.and_eq_false_iff]
    left
    rw [h.1] at hne
    exact beq_eq_false_iff_ne.mpr fun hd => hne hd.symm

theorem starts_with_road_not_obs (s : String) (h : starts_with s "roadline" = true) :
    starts_with s "obstacle" = false := by
  unfold starts_with at h ⊢
  have hr : "roadline".data = 'r' :: "oadline".data := rfl
  have ho : "obstacle".data = 'o' :: "bstacle".data := rfl
  rw [hr] at h
  rw [ho]
  exact is_pre_head_ne 'r' 'o' _ _ _ (by decide) h

theorem starts_with_obs_not_road (s : String) (h : starts_with s "obstacle" = true) :
    starts_with s "roadline" = false := by
  unfold starts_with at h ⊢
  have hr : "roadline".data = 'r' :: "oadline".data := rfl
  have ho : "obstacle".data = 'o' :: "bstacle".data := rfl
  rw [ho] at h
  rw [hr]
  exact is_pre_head_ne 'o' 'r' _ _ _ (by decide) h

/-- C2: once lost is true, a further per-frame update call returns the engine
and state unchanged: health, lost, every sprite position and rotation, the
texts, the event list and the effect log are identical, so no side effects
are performed. -/
theorem c2_terminal_state_idempotent (e : Engine) (s : GameState) (h : s.lost = true) :
    game_logic e s = some (e, s) :=
  game_logic_lost e s h

/-- Witness for C2 on a concrete lost state with a pending event. -/
theorem c2_witness : game_logic evEngine cState = some (evEngine, cState) :=
  c2_terminal_state_idempotent evEngine cState rfl

/-- C3 counterexample: with lost already true and one pending collision
event, the update returns with the frame's event list untouched and
non-empty, so the list is not drained regardless of state. -/
theorem c3_counterexample :
    game_logic evEngine cState = some (evEngine, cState) ∧
    evEngine.collision_events ≠ [] :=
  ⟨game_logic_lost evEngine cState rfl, by decide⟩

/-- C3 (amended): in an update call entered with lost = false, the frame's
collision-event list is fully drained: the returned engine's event list is
empty; when lost is already true the update leaves the list untouched. -/
theorem c3_events_drained (e e' : Engine) (s s' : GameState) (hl : s.lost = false)
    (hg : game_logic e s = some (e', s')) : e'.collision_events = [] := by
  obtain ⟨e1, s1, e3, s3, hk, hc, hch⟩ := game_logic_decomp e s e' s' hl hg
  have hcp := handle_collisions_parts (move_road_objects e1) e3 s1 s3 hc
  have hchp := check_health_parts e3 e' s3 s' hch
  rw [hchp.2.2.2.2.2, hcp.1]

/-- Witness for C3 (amended) on a concrete non-lost frame with one event. -/
theorem c3_witness : c3wOut.1.collision_events = [] :=
  c3_events_drained evEngine c3wOut.1 wState c3wOut.2 rfl rfl

/-- C8: the resolved direction is +1 when only up is held, -1 when only down
is held, and 0 when both or neither are held; it is a pure function of the
two key-held bits. -/
theorem c8_direction_resolution (ks : KeyboardState) :
    direction_of ks =
      if ks.up && !ks.down then 1 else if ks.down && !ks.up then -1 else 0 := by
  cases ks with
  | mk u d => cases u <;> cases d <;> decide

/-- C6: a collision event mutates nothing unless it is a begin event whose
pair contains the player: end events and non-player events leave the
accumulator unchanged; a qualifying event with positive health decrements
health by exactly one, sets the health text to the new value, and plays the
impact sound. -/
theorem c6_collision_step (name : String) (acc : Nat × String × List Effect)
    (event : CollisionEvent) :
    ((event.pair.either_contains name = false ∨ event.state.is_end = true) →
      collide_step name acc event = acc) ∧
    (event.pair.either_contains name = true → event.state.is_end = false → 0 < acc.1 →
      collide_step name acc event =
        (acc.1 - 1, "Health: " ++ toString (acc.1 - 1),
          acc.2.2 ++ [Effect.setText "health_message" ("Health: " ++ toString (acc.1 - 1)),
            Effect.playSfx "Impact3" (7 / 10)])) := by
  constructor
  · intro h
    unfold collide_step
    rcases h with h | h
    · rw [h]
      simp
    · rw [h]
      simp
  · intro h1 h2 h3
    unfold collide_step
    rw [h1, h2]
    simp [h3]

/-- Witness for C6: a begin event between the player and an obstacle at
health 3. -/
theorem c6_witness :
    collide_step "Colin" c6wAcc evW =
      (c6wAcc.1 - 1, "Health: " ++ toString (c6wAcc.1 - 1),
        c6wAcc.2.2 ++ [Effect.setText "health_message" ("Health: " ++ toString (c6wAcc.1 - 1)),
          Effect.playSfx "Impact3" (7 / 10)]) :=
  (c6_collision_step "Colin" c6wAcc evW).2 rfl rfl (by decide)

/-- C1: from a non-lost state, one update call ends lost exactly when it
ends with health 0; the stop-music count of the effect log grows by exactly
one on that transition and is otherwise unchanged, and the three game-over
effects (Game Over label, stop music, jingle) are appended on the
transition; over a whole run the count grows by exactly one when the run
ends lost and by zero otherwise, so the game-over side effects fire exactly
once per run, with no later call firing them again. -/
theorem c1_game_over_once :
    (∀ (e e' : Engine) (s s' : GameState), s.lost = false → game_logic e s = some (e', s') →
      ((s'.lost = true ↔ s'.health_amount = 0) ∧
        countStop e'.effects = countStop e.effects + (if s'.lost = true then 1 else 0) ∧
        (s'.lost = true → List.IsSuffix gameOverFx e'.effects))) ∧
    (∀ (l : List FrameInput) (e e' : Engine) (s s' : GameState), s.lost = false →
      run e s l = some (e', s') →
      countStop e'.effects = countStop e.effects + (if s'.lost = true then 1 else 0)) :=
  ⟨fun e e' s s' hl hg => game_logic_step_spec e e' s s' hl hg,
    fun l e e' s s' hl hr => run_countStop l e s e' s' hr hl⟩

/-- Witness for C1: the frame in which a single collision drives health from
1 to 0 fires the transition, leaves health 0, bumps the stop-music count by
one and appends the game-over effects. -/
theorem c1_witness :
    c1wOut.2.health_amount = 0 ∧
    countStop c1wOut.1.effects = countStop evEngine.effects +
      (if c1wOut.2.lost = true then 1 else 0) ∧
    List.IsSuffix gameOverFx c1wOut.1.effects :=
  ⟨((c1_game_over_once.1 evEngine c1wOut.1 c1wS c1wOut.2 rfl rfl).1).mp rfl,
    (c1_game_over_once.1 evEngine c1wOut.1 c1wS c1wOut.2 rfl rfl).2.1,
    (c1_game_over_once.1 evEngine c1wOut.1 c1wS c1wOut.2 rfl rfl).2.2 rfl⟩

/-- C4: health starts at 5; every update call leaves health less than or
equal to its previous value (no operation increments it); and along any run
from the initial state health stays at most 5.  The lower bound 0 holds
because health is a natural number in the model, matching the unsigned u8
of the source whose only decrement is guarded by positivity. -/
theorem c4_health_invariant :
    initial_game_state.health_amount = 5 ∧
    (∀ (e e' : Engine) (s s' : GameState), game_logic e s = some (e', s') →
      s'.health_amount ≤ s.health_amount) ∧
    (∀ (e0 e' : Engine) (l : List FrameInput) (s' : GameState),
      run e0 initial_game_state l = some (e', s') → s'.health_amount ≤ 5) :=
  ⟨rfl, fun e e' s s' h => game_logic_health_le e e' s s' h,
    fun e0 e' l s' h => run_health_le l e0 initial_game_state e' s' h⟩

/-- Witness for C4 on a concrete frame with one collision event. -/
theorem c4_witness : c3wOut.2.health_amount ≤ wState.health_amount :=
  c4_health_invariant.2.1 evEngine c3wOut.1 wState c3wOut.2 rfl

/-- C7: for any frame with non-negative delta, handle_keyboard sets the
player's y to its previous value plus direction times PLAYER_SPEED times
the delta, and overwrites the rotation with direction times 0.15. -/
theorem c7_player_kinematics (e e' : Engine) (s s' : GameState) (p p' : Sprite)
    (hdt : 0 ≤ e.delta_f32)
    (hp : getSprite e.sprites s.player_name = some p)
    (hk : handle_keyboard e s = some (e', s'))
    (hp' : getSprite e'.sprites s.player_name = some p') :
    p'.y = p.y + direction_of e.keyboard_state * PLAYER_SPEED * e.delta_f32 ∧
    p'.rotation = direction_of e.keyboard_state * (15 / 100) := by
  rw [handle_keyboard_eq e s p _ hp rfl] at hk
  injection hk with hk
  rw [Prod.mk.injEq] at hk
  obtain ⟨hE, hS⟩ := hk
  rw [← hE] at hp'
  dsimp only at hp'
  have hset := getSprite_set e.sprites s.player_name p
    { p with y := p.y + direction_of e.keyboard_state * PLAYER_SPEED * e.delta_f32,
             rotation := direction_of e.keyboard_state * (15 / 100) } hp rfl
  rw [hset] at hp'
  injection hp' with hp'
  rw [← hp']
  exact ⟨rfl, rfl⟩

/-- Witness for C7: holding up for one second moves the player up by 250 and
tilts it by 0.15. -/
theorem c7_witness :
    c7wP.y = pW.y + direction_of c7wE.keyboard_state * PLAYER_SPEED * c7wE.delta_f32 ∧
    c7wP.rotation = direction_of c7wE.keyboard_state * (15 / 100) :=
  c7_player_kinematics c7wE c7wOut.1 wState c7wOut.2 pW c7wP (by decide) rfl rfl rfl

/-- C5: when the translated y position leaves (-360, 360), handle_keyboard
zeroes the health in that same update call, the full update call also ends
with health 0 whatever the prior health was, and the stored player keeps the
unclamped translated position and rotation. -/
theorem c5_out_of_bounds (e : Engine) (s : GameState) (p p' : Sprite) (e1 e2 : Engine)
    (s1 s2 : GameState) (hl : s.lost = false)
    (hp : getSprite e.sprites s.player_name = some p)
    (hp' : p' = { p with y := p.y + direction_of e.keyboard_state * PLAYER_SPEED * e.delta_f32,
                         rotation := direction_of e.keyboard_state * (15 / 100) })
    (hk : handle_keyboard e s = some (e1, s1))
    (hg : game_logic e s = some (e2, s2))
    (hoob : p'.y < -360 ∨ p'.y > 360) :
    s1.health_amount = 0 ∧ getSprite e1.sprites s.player_name = some p' ∧
    s2.health_amount = 0 := by
  rw [handle_keyboard_eq e s p p' hp hp'] at hk
  injection hk with hk
  rw [Prod.mk.injEq] at hk
  obtain ⟨hE, hS⟩ := hk
  refine ⟨?_, ?_, ?_⟩
  · rw [← hS, if_pos hoob]
  · rw [← hE]
    refine getSprite_set e.sprites s.player_name p p' hp ?_
    rw [hp']
  · obtain ⟨e1', s1', e3, s3, hk2, hc, hch⟩ := game_logic_decomp e s e2 s2 hl hg
    rw [handle_keyboard_eq e s p p' hp hp'] at hk2
    injection hk2 with hk2
    rw [Prod.mk.injEq] at hk2
    obtain ⟨hE2, hS2⟩ := hk2
    have hs1z : s1'.health_amount = 0 := by
      rw [← hS2, if_pos hoob]
    have hcp := handle_collisions_parts (move_road_objects e1') e3 s1' s3 hc
    have hchp := check_health_parts e3 e2 s3 s2 hch
    have h3 : s3.health_amount = 0 := by
      have hle := hcp.2.2.2.1
      omega
    rw [hchp.1]
    exact h3

/-- Witness for C5: holding up for two seconds of delta puts the player at
y = 500, outside the band, and the update zeroes the health. -/
theorem c5_witness :
    c5wK.2.health_amount = 0 ∧
    getSprite c5wK.1.sprites wState.player_name = some
      ({ pW with y := pW.y + direction_of c5wE.keyboard_state * PLAYER_SPEED * c5wE.delta_f32,
                 rotation := direction_of c5wE.keyboard_state * (15 / 100) }) ∧
    c5wG.2.health_amount = 0 :=
  c5_out_of_bounds c5wE wState pW _ c5wK.1 c5wG.1 c5wK.2 c5wG.2 rfl rfl rfl rfl rfl
    (Or.inr (by decide))

/-- C9: the road-object updater acts by identifier prefix: a roadline sprite
scrolls left by 400 dt and wraps right by 1500 when it passes -675; an
obstacle sprite scrolls left and, below -800, respawns at the next two
random draws, which land in the intervals 800 to 1600 and -300 to 300 (left
closed, right open) whenever the random stream produces unit samples; a
sprite matching neither prefix is untouched. -/
theorem c9_road_objects (dt : Rat) (rng : Nat → Rat) (sprite : Sprite) (idx : Nat)
    (hdt : 0 ≤ dt) :
    (starts_with sprite.label "roadline" = true →
      moveRoadSprite dt rng sprite idx =
        ({ sprite with
             x := if sprite.x - ROAD_SPEED * dt < -675 then sprite.x - ROAD_SPEED * dt + 1500
                  else sprite.x - ROAD_SPEED * dt }, idx)) ∧
    (starts_with sprite.label "obstacle" = true →
      (sprite.x - ROAD_SPEED * dt < -800 →
        moveRoadSprite dt rng sprite idx =
          ({ sprite with
               x := gen_range rng idx 800 1600,
               y := gen_range rng (idx + 1) (-300) 300 }, idx + 2) ∧
        ((∀ n, 0 ≤ rng n ∧ rng n < 1) →
          800 ≤ gen_range rng idx 800 1600 ∧ gen_range rng idx 800 1600 < 1600 ∧
          -300 ≤ gen_range rng (idx + 1) (-300) 300 ∧
          gen_range rng (idx + 1) (-300) 300 < 300)) ∧
      (¬ sprite.x - ROAD_SPEED * dt < -800 →
        moveRoadSprite dt rng sprite idx = ({ sprite with x := sprite.x - ROAD_SPEED * dt }, idx))) ∧
    (starts_with sprite.label "roadline" = false → starts_with sprite.label "obstacle" = false →
      moveRoadSprite dt rng sprite idx = (sprite, idx)) := by
  refine ⟨?_, ?_, ?_⟩
  · intro h
    have hobs := starts_with_road_not_obs sprite.label h
    simp [moveRoadSprite, h, hobs]
  · intro h
    have hroad := starts_with_obs_not_road sprite.label h
    refine ⟨?_, ?_⟩
    · intro hlt
      refine ⟨by simp [moveRoadSprite, h, hroad, hlt], ?_⟩
      intro hu
      have h0 := (hu idx).1
      have h1 := (hu idx).2
      have h2 := (hu (idx + 1)).1
      have h3 := (hu (idx + 1)).2
      unfold gen_range
      refine ⟨by nlinarith, by nlinarith, by nlinarith, by nlinarith⟩
    · intro hge
      simp [moveRoadSprite, h, hroad, hge]
  · intro h1 h2
    simp [moveRoadSprite, h1, h2]

/-- Witness for C9: an obstacle at x = -500 with dt = 1 crosses -800 and is
respawned from the constant-zero unit stream at x = 800, y = -300, both in
range. -/
theorem c9_witness :
    (moveRoadSprite 1 rng0 obsW 0 =
      ({ obsW with
           x := gen_range rng0 0 800 1600,
           y := gen_range rng0 1 (-300) 300 }, 2)) ∧
    (800 ≤ gen_range rng0 0 800 1600 ∧ gen_range rng0 0 800 1600 < 1600 ∧
      -300 ≤ gen_range rng0 1 (-300) 300 ∧ gen_range rng0 1 (-300) 300 < 300) :=
  have h := ((c9_road_objects 1 rng0 obsW 0 (by decide)).2.1 (by decide)).1 (by decide)
  ⟨h.1, h.2 (fun n => ⟨le_refl 0, show (0 : Rat) < 1 by decide⟩)⟩

/-- C10: along any run from the initial state (health 5, not lost), a lost
state always has health 0; and from any lost state a run only refreshes the
frame-input fields of the engine and keeps the state values, so health
remains 0 forever once lost. -/
theorem c10_lost_means_zero :
    (∀ (e0 e' : Engine) (l : List FrameInput) (s' : GameState),
      run e0 initial_game_state l = some (e', s') → s'.lost = true →
      s'.health_amount = 0) ∧
    (∀ (e : Engine) (s : GameState) (l : List FrameInput), s.lost = true →
      run e s l = some (List.foldl loadFrame e l, s)) := by
  constructor
  · intro e0 e' l s' h hlost
    refine run_lost_inv l e0 initial_game_state e' s' h ?_ hlost
    intro hc
    simp [initial_game_state] at hc
  · intro e s l h
    exact run_lost l e s h

/-- Witness for C10: one out-of-bounds frame from the initial state ends
lost, and the theorem yields health 0 there. -/
theorem c10_witness : c10wOut.2.health_amount = 0 :=
  c10_lost_means_zero.1 wEngine c10wOut.1 c10wIn c10wOut.2 rfl rfl
